import Mathlib

/-!
Shallow embedding of the export/reconcile engine of `cosmos-isolation-utils`
(`core/cosmos_client.py`, `core/base_executor.py`, `core/dump.py`,
`core/upload.py`).  Documents are modelled as association lists over an
abstract value type (only the key set matters to the engine); the document
store is modelled by oracles recording which container creations and which
item writes succeed.
-/

namespace CosmosIsolationUtils

/-! ## Document filter (`cosmos_client.py` / `base_executor.py`,
`_filter_internal_attributes`) -/

/-- The five CosmosDB-internal attribute names
(`internal_attributes = {'_rid', '_self', '_etag', '_attachments', '_ts'}`). -/
def internalAttributes : List String :=
  ["_rid", "_self", "_etag", "_attachments", "_ts"]

/-- Model of `_filter_internal_attributes`: `{k: v for k, v in item.items() if k not in
internal_attributes}`.  A document is an association list from keys to values. -/
def filter_internal_attributes {V : Type} (item : List (String × V)) :
    List (String × V) :=
  item.filter (fun kv => decide (kv.1 ∉ internalAttributes))

/-! ## Batch writer (`cosmos_client.py`, `create_items_batch` /
`upsert_items_batch`) -/

/-- The chunking performed by `for i in range(0, len(items), batch_size):
batch = items[i:i + batch_size]`; `bs = 0` would raise in Python and yields
no chunks here. -/
def sliceChunks {α : Type} (bs : Nat) : List α → List (List α)
  | [] => []
  | x :: xs =>
    if _h : bs = 0 then []
    else (x :: xs).take bs :: sliceChunks bs ((x :: xs).drop bs)
termination_by l => l.length
decreasing_by
  simp only [List.length_drop, List.length_cons]
  omega

/-- Model of `create_items_batch`: per chunk, each item gets its own `create_item`
call; a per-item failure (`write` returning `none`) is logged and skipped,
successes are appended in order.  `write` is the store's per-item response
oracle. -/
def create_items_batch {α : Type} (write : α → Option α) (items : List α)
    (batch_size : Nat) : List α :=
  (sliceChunks batch_size items).foldl
    (fun acc batch => acc ++ batch.filterMap write) []

/-- Model of `upsert_items_batch`: identical control flow to `create_items_batch`,
with `upsert_item` as the per-item call. -/
def upsert_items_batch {α : Type} (write : α → Option α) (items : List α)
    (batch_size : Nat) : List α :=
  (sliceChunks batch_size items).foldl
    (fun acc batch => acc ++ batch.filterMap write) []

/-! ## Envelope data model (§3 of the file format; `dump.py` / `upload.py`) -/

/-- The value found under a partition-key schema's `paths` key: the code
tolerates a single string, a list of strings, and rejects anything else
(`upload.py` lines 190-195). -/
inductive PKPaths : Type where
  | str (s : String)
  | list (l : List String)
  | invalid
deriving DecidableEq, Repr

/-- A partition-key schema object; `paths = none` models a schema dict
without a `paths` key. -/
structure PKSchema : Type where
  paths : Option PKPaths
deriving DecidableEq, Repr

/-- One `ContainerRecord` of the envelope.  `items = none` models a record
dict without an `items` key (`container_data.get("items", [])`). -/
structure ContainerRecord (α : Type) : Type where
  name : String
  total_items : Nat
  partition_key : Option PKSchema
  items : Option (List α)
deriving DecidableEq, Repr

/-- The persisted envelope (`output_data` in `dump.py`). -/
structure Envelope (α : Type) : Type where
  database : String
  total_containers : Nat
  total_items : Nat
  containers : List (ContainerRecord α)
deriving DecidableEq, Repr

/-- A `PartitionKey` argument as built by the code: `PartitionKey(path=p)`
(simple key) or `PartitionKey(paths=ps)` (composite key). -/
inductive PKSpec : Type where
  | single (path : String)
  | multi (paths : List String)
deriving DecidableEq, Repr

/-! ## Upload (`upload.py`, `upload_entries`) -/

/-- The store and console environment seen by `upload_entries`:
the live container catalog, the confirmation oracle, which container
creations the store accepts, each item write's response (`none` models a
caught per-item `CosmosHttpResponseError`), and whether the batch call as a
whole raises for a container. -/
structure UploadEnv (α : Type) : Type where
  available : List String
  confirmCreate : String → Bool
  confirmProceed : Bool
  createOk : String → PKSpec → Bool
  write : String → α → Option α
  batchRaises : String → Bool

/-- The outcome of the per-container body of the upload loop: whether the
container ended in `successful_containers`, how many items were uploaded,
and the traces of container-creation and item-write calls issued. -/
structure ContainerResult (α : Type) : Type where
  success : Bool
  uploaded : Nat
  createCalls : List PKSpec
  writeCalls : List α
deriving DecidableEq, Repr

/-- The normalization `if len(paths) == 1: PartitionKey(path=paths[0]) else:
PartitionKey(paths=paths)` (`upload.py` lines 198-201). -/
def pkSpecOfPaths (paths : List String) : PKSpec :=
  match paths with
  | [p] => .single p
  | ps => .multi ps

/-- The item-upload tail of the loop body (`upload.py` lines 241-260),
entered once the container exists: an empty `items` list skips the batch
call and still counts as success; a raising batch call marks the container
failed; otherwise the chosen batch writer runs over all items. -/
def uploadItems {α : Type} (env : UploadEnv α) (upsert : Bool) (bs : Nat)
    (name : String) (items : List α) (calls : List PKSpec) : ContainerResult α :=
  if items.isEmpty then ⟨true, 0, calls, []⟩
  else if env.batchRaises name then ⟨false, 0, calls, []⟩
  else
    let uploaded :=
      if upsert then upsert_items_batch (env.write name) items bs
      else create_items_batch (env.write name) items bs
    ⟨true, uploaded.length, calls, items⟩

/-- One iteration of the upload loop (`upload.py` lines 165-260): existence
check, the partition-key creation ladder for missing containers, then item
upload. -/
def uploadProcessContainer {α : Type} (env : UploadEnv α)
    (upsert force create_containers : Bool) (bs : Nat)
    (c : ContainerRecord α) : ContainerResult α :=
  let items := c.items.getD []
  if c.name ∈ env.available then uploadItems env upsert bs c.name items []
  else if create_containers then
    if ¬force ∧ ¬env.confirmCreate c.name then ⟨false, 0, [], []⟩
    else
      let ladder := fun (paths : List String) =>
        let spec1 := pkSpecOfPaths paths
        if env.createOk c.name spec1 then
          uploadItems env upsert bs c.name items [spec1]
        else if env.createOk c.name (.single "pk") then
          uploadItems env upsert bs c.name items [spec1, .single "pk"]
        else ⟨false, 0, [spec1, .single "pk"], []⟩
      let defaultCreate :=
        if env.createOk c.name (.single "/id") then
          uploadItems env upsert bs c.name items [.single "/id"]
        else ⟨false, 0, [PKSpec.single "/id"], []⟩
      match c.partition_key with
      | none => defaultCreate
      | some pk =>
        match pk.paths with
        | none => defaultCreate
        | some (.str s) => ladder [s]
        | some (.list l) => ladder l
        | some .invalid => ⟨false, 0, [], []⟩
  else ⟨false, 0, [], []⟩

/-- Result aggregation of the upload loop (`total_uploaded`,
`successful_containers`, `failed_containers`), with the call traces. -/
structure UploadResult (α : Type) : Type where
  total_uploaded : Nat
  successful : List String
  failed : List String
  createCalls : List (String × PKSpec)
  writeCalls : List (String × α)
deriving DecidableEq, Repr

/-- The upload loop over the resolved replay set (`upload.py` lines
160-260). -/
def uploadContainers {α : Type} (env : UploadEnv α)
    (upsert force create_containers : Bool) (bs : Nat) :
    List (ContainerRecord α) → UploadResult α
  | [] => ⟨0, [], [], [], []⟩
  | c :: rest =>
    let r := uploadProcessContainer env upsert force create_containers bs c
    let acc := uploadContainers env upsert force create_containers bs rest
    ⟨r.uploaded + acc.total_uploaded,
     (if r.success then [c.name] else []) ++ acc.successful,
     (if r.success then [] else [c.name]) ++ acc.failed,
     r.createCalls.map (fun s => (c.name, s)) ++ acc.createCalls,
     r.writeCalls.map (fun d => (c.name, d)) ++ acc.writeCalls⟩

/-- The final check `if not successful_containers: raise Exception(...)` (`upload.py` lines
276-278): the upload raises at the end iff no container succeeded. -/
def uploadRaises {α : Type} (r : UploadResult α) : Bool :=
  r.successful.isEmpty

/-- Outcome of `upload_entries` after parsing: clean return on declined
confirmation, the dry-run report, or a completed run. -/
inductive UploadOutcome (α : Type) : Type where
  | cancelled
  | dryRun (total_items containers : Nat)
  | completed (r : UploadResult α)

/-- Model of `upload_entries` from the summary point on (`upload.py` lines 151-260):
confirmation gate, then the dry-run early return reporting
`sum(c['total_items'])` items and `len(containers_to_process)` containers,
else the processing loop. -/
def upload_entries_run {α : Type} (env : UploadEnv α)
    (upsert dry_run force create_containers : Bool) (bs : Nat)
    (records : List (ContainerRecord α)) : UploadOutcome α :=
  if ¬force ∧ ¬dry_run ∧ ¬env.confirmProceed then .cancelled
  else if dry_run then
    .dryRun ((records.map ContainerRecord.total_items).sum) records.length
  else .completed (uploadContainers env upsert force create_containers bs records)

/-- Container-creation calls performed by an upload outcome. -/
def outcomeCreateCalls {α : Type} : UploadOutcome α → List (String × PKSpec)
  | .completed r => r.createCalls
  | _ => []

/-- Item-write calls performed by an upload outcome. -/
def outcomeWriteCalls {α : Type} : UploadOutcome α → List (String × α)
  | .completed r => r.writeCalls
  | _ => []

/-! ## Envelope parsing (`upload.py` lines 41-77) -/

/-- Python's `str.split(',')` over the character sequence: split at every
comma, keeping empty segments. -/
def splitCommaAux : List Char → List Char → List String
  | [], acc => [String.mk acc.reverse]
  | ch :: rest, acc =>
    if ch = ',' then String.mk acc.reverse :: splitCommaAux rest []
    else splitCommaAux rest (ch :: acc)

/-- Python's `str.strip()`: drop leading and trailing whitespace. -/
def stripStr (s : String) : String :=
  String.mk
    (((s.data.dropWhile Char.isWhitespace).reverse.dropWhile
        Char.isWhitespace).reverse)

/-- The expression `[c.strip() for c in containers.split(',')]`. -/
def splitTargets (s : String) : List String :=
  (splitCommaAux s.data []).map stripStr

/-- The container-name filter of `upload_entries` (lines 47-59): compute the
requested names, fail with the list of names missing from the envelope, else
keep the records whose names were requested. -/
def selectContainers {α : Type} (records : List (ContainerRecord α))
    (filterStr : String) :
    Except (List String) (List (ContainerRecord α)) :=
  let target := splitTargets filterStr
  let avail := records.map ContainerRecord.name
  let missing := target.filter (fun c => decide (c ∉ avail))
  if missing.isEmpty then
    .ok (records.filter (fun c => decide (c.name ∈ target)))
  else .error missing

/-- The shape-relevant fields of the parsed JSON input: `containers` when
present as a list, and the legacy `container`/`items`/`partition_key`
fields. -/
structure RawData (α : Type) : Type where
  containers : Option (List (ContainerRecord α))
  container : Option String
  items : Option (List α)
  partition_key : Option PKSchema

/-- Shape detection of `upload_entries` (lines 41-77): a `containers` list
selects the multi-container path; else `container` + `items` converts the
legacy shape to a one-element record list; anything else is a structural
error. -/
def parseShape {α : Type} (d : RawData α) :
    Except Unit (List (ContainerRecord α)) :=
  match d.containers with
  | some cs => .ok cs
  | none =>
    match d.container, d.items with
    | some nm, some its => .ok [⟨nm, its.length, d.partition_key, some its⟩]
    | _, _ => .error ()

/-! ## Dump (`dump.py`, `ContainerDumper`) -/

/-- The store environment seen by the dumper: per container, the result of
`get_container_properties` (its optional `partitionKey` entry, or a raised
error) and of `get_all_items` (the filtered item list, or a raised error). -/
structure DumpEnv (α : Type) : Type where
  props : String → Except Unit (Option PKSchema)
  fetchItems : String → Except Unit (List α)

/-- Model of `_process_container`: fetch the partition key and all items, build the
record; any exception yields failure (`none`) for this container only. -/
def dumpProcessContainer {α : Type} (env : DumpEnv α) (name : String) :
    Option (ContainerRecord α) :=
  match env.props name with
  | .error _ => none
  | .ok pk =>
    match env.fetchItems name with
    | .error _ => none
    | .ok items => some ⟨name, items.length, pk, some items⟩

/-- Model of `_process_all_containers`: every selected container is processed;
successes append a record, failures append the name to the failed list. -/
def dumpProcessAll {α : Type} (env : DumpEnv α) :
    List String → List (ContainerRecord α) × List String
  | [] => ([], [])
  | n :: rest =>
    let acc := dumpProcessAll env rest
    match dumpProcessContainer env n with
    | some r => (r :: acc.1, acc.2)
    | none => (acc.1, n :: acc.2)

/-- Model of `dump_containers` after container selection: `_prepare_output_structure`
fixes `total_containers := len(containers_to_dump)` up front, then the
processing loop fills `containers` and accumulates `total_items` by the
length of each successful container's item list. -/
def dump_containers {α : Type} (env : DumpEnv α) (db : String)
    (names : List String) : Envelope α × List String :=
  let p := dumpProcessAll env names
  ({ database := db
     total_containers := names.length
     total_items := (p.1.map (fun r => (r.items.getD []).length)).sum
     containers := p.1 }, p.2)

/-- Model of `_validate_processing_results`: the dump raises iff no container
produced a record. -/
def dumpRaises {α : Type} (e : Envelope α) : Bool :=
  e.containers.isEmpty

/-! ## Helper lemmas -/

/-- Successes plus per-item failures of a `filterMap`ped write loop account
for every input item. -/
lemma filterMap_length_add {α β : Type} (g : α → Option β) (l : List α) :
    (l.filterMap g).length + (l.filter (fun d => (g d).isNone)).length
      = l.length := by
  induction l with
  | nil => simp
  | cons x xs ih =>
    cases hg : g x <;>
      simp only [List.filterMap_cons, hg, List.filter_cons, Option.isNone_none,
        Option.isNone_some, List.length_cons] <;>
      simp <;> omega

/-- When every write succeeds, the batch result has one response per item. -/
lemma filterMap_length_all_some {α : Type} (g : α → Option α) (l : List α)
    (h : ∀ d ∈ l, (g d).isSome = true) : (l.filterMap g).length = l.length := by
  induction l with
  | nil => simp
  | cons x xs ih =>
    obtain ⟨y, hy⟩ := Option.isSome_iff_exists.mp (h x (by simp))
    simp [List.filterMap_cons, hy, ih (fun d hd => h d (by simp [hd]))]

/-- Folding the per-chunk write loop over the slices of a list visits every
item exactly once, in order. -/
lemma sliceChunks_foldl {α : Type} (g : α → Option α) (bs : Nat)
    (hbs : 0 < bs) :
    ∀ (l init : List α),
      (sliceChunks bs l).foldl (fun acc batch => acc ++ batch.filterMap g) init
        = init ++ l.filterMap g
  | [], init => by simp [sliceChunks]
  | x :: xs, init => by
    rw [sliceChunks]
    rw [dif_neg (Nat.pos_iff_ne_zero.mp hbs)]
    rw [List.foldl_cons]
    rw [sliceChunks_foldl g bs hbs ((x :: xs).drop bs)
      (init ++ ((x :: xs).take bs).filterMap g)]
    rw [List.append_assoc, ← List.filterMap_append, List.take_append_drop]
  termination_by l => l.length
  decreasing_by
    simp only [List.length_drop, List.length_cons]
    omega

/-- Unfolding: `create_items_batch` is the per-item write loop over all items. -/
lemma create_items_batch_eq {α : Type} (g : α → Option α) (items : List α)
    (bs : Nat) (hbs : 0 < bs) :
    create_items_batch g items bs = items.filterMap g := by
  unfold create_items_batch
  simpa using sliceChunks_foldl g bs hbs items []

/-- Unfolding: `upsert_items_batch` is the per-item write loop over all items. -/
lemma upsert_items_batch_eq {α : Type} (g : α → Option α) (items : List α)
    (bs : Nat) (hbs : 0 < bs) :
    upsert_items_batch g items bs = items.filterMap g := by
  unfold upsert_items_batch
  simpa using sliceChunks_foldl g bs hbs items []

/-! ## Claim theorems -/

/-- C5. Document Filter: for every document, the filter removes exactly the
five store-internal keys `_rid`, `_self`, `_etag`, `_attachments`, `_ts`
(their lookups become `none`), and every other key maps to its unchanged
value; the filter is a total function, hence pure and never failing. -/
theorem c5_document_filter {V : Type} (item : List (String × V)) (k : String) :
    (k ∈ internalAttributes →
      (filter_internal_attributes item).lookup k = none)
    ∧ (k ∉ internalAttributes →
      (filter_internal_attributes item).lookup k = item.lookup k) := by
  constructor
  · intro hk
    induction item with
    | nil => simp [filter_internal_attributes]
    | cons kv rest ih =>
      obtain ⟨a, v⟩ := kv
      by_cases ha : a ∈ internalAttributes
      · simpa [filter_internal_attributes, ha] using ih
      · have hne : (k == a) = false := by
          rw [beq_eq_false_iff_ne]
          rintro rfl
          exact ha hk
        simpa [filter_internal_attributes, ha, List.lookup, hne] using ih
  · intro hk
    induction item with
    | nil => simp [filter_internal_attributes]
    | cons kv rest ih =>
      obtain ⟨a, v⟩ := kv
      by_cases ha : a ∈ internalAttributes
      · have hne : (k == a) = false := by
          rw [beq_eq_false_iff_ne]
          rintro rfl
          exact hk ha
        simpa [filter_internal_attributes, ha, List.lookup, hne] using ih
      · by_cases heq : k = a
        · subst heq
          simp [filter_internal_attributes, ha, List.lookup]
        · have hne : (k == a) = false := by
            rw [beq_eq_false_iff_ne]
            exact heq
          simpa [filter_internal_attributes, ha, List.lookup, hne] using ih

/-- Witness for C5 at a concrete document. -/
theorem c5_document_filter_witness :
    (filter_internal_attributes
        [("_rid", 1), ("id", 2), ("_ts", 3), ("pk", 4)]).lookup "_rid" = none
    ∧ (filter_internal_attributes
        [("_rid", 1), ("id", 2), ("_ts", 3), ("pk", 4)]).lookup "id"
      = some 2 := by
  constructor
  · exact (c5_document_filter
      [("_rid", 1), ("id", 2), ("_ts", 3), ("pk", 4)] "_rid").1 (by decide)
  · have h := (c5_document_filter
      [("_rid", 1), ("id", 2), ("_ts", 3), ("pk", 4)] "id").2 (by decide)
    rw [h]
    decide

/-- C4. Batch Writer: for every sequence of documents and every (positive)
batch size, the create and upsert batch writers issue one separate write
call per document, return exactly the store responses of the successful
writes in order, and the number of per-item failures is the input count
minus the output count. -/
theorem c4_batch_writer {α : Type} (createResp upsertResp : α → Option α)
    (items : List α) (bs : Nat) (hbs : 0 < bs) :
    create_items_batch createResp items bs = items.filterMap createResp
    ∧ upsert_items_batch upsertResp items bs = items.filterMap upsertResp
    ∧ items.length - (create_items_batch createResp items bs).length
        = (items.filter (fun d => (createResp d).isNone)).length
    ∧ items.length - (upsert_items_batch upsertResp items bs).length
        = (items.filter (fun d => (upsertResp d).isNone)).length := by
  refine ⟨create_items_batch_eq _ _ _ hbs, upsert_items_batch_eq _ _ _ hbs,
    ?_, ?_⟩
  · rw [create_items_batch_eq _ _ _ hbs]
    have h := filterMap_length_add createResp items
    omega
  · rw [upsert_items_batch_eq _ _ _ hbs]
    have h := filterMap_length_add upsertResp items
    omega

/-- Witness for C4 at a concrete item list with one failing write. -/
theorem c4_batch_writer_witness :
    create_items_batch (fun n => if n = 2 then none else some (n + 10))
        [1, 2, 3] 2
      = [1, 2, 3].filterMap (fun n => if n = 2 then none else some (n + 10))
    ∧ ([1, 2, 3] : List Nat).length
        - (create_items_batch (fun n => if n = 2 then none else some (n + 10))
            [1, 2, 3] 2).length
      = ([1, 2, 3].filter
          (fun n => ((if n = 2 then none else some (n + 10) : Option Nat)).isNone)).length := by
  have h := c4_batch_writer (fun n => if n = 2 then none else some (n + 10))
    (fun n => if n = 2 then none else some (n + 10)) [1, 2, 3] 2 (by decide)
  exact ⟨h.1, h.2.2.1⟩

/-- Closed form of the dump loop: the records are the successful
containers in order, the failed list the failing names in order. -/
lemma dumpProcessAll_eq {α : Type} (env : DumpEnv α) :
    ∀ names, dumpProcessAll env names
      = (names.filterMap (dumpProcessContainer env),
         names.filter (fun n => (dumpProcessContainer env n).isNone)) := by
  intro names
  induction names with
  | nil => rfl
  | cons n rest ih =>
    cases h : dumpProcessContainer env n <;>
      simp [dumpProcessAll, ih, h, List.filterMap_cons]

/-- Closed form of the upload loop's successful-name list. -/
lemma uploadContainers_successful {α : Type} (env : UploadEnv α)
    (u f cc : Bool) (bs : Nat) (records : List (ContainerRecord α)) :
    (uploadContainers env u f cc bs records).successful
      = (records.filter
          (fun c => (uploadProcessContainer env u f cc bs c).success)).map
          ContainerRecord.name := by
  induction records with
  | nil => rfl
  | cons c rest ih =>
    cases h : (uploadProcessContainer env u f cc bs c).success <;>
      simp [uploadContainers, ih, h, List.filter_cons]

/-- Closed form of the upload loop's failed-name list. -/
lemma uploadContainers_failed {α : Type} (env : UploadEnv α)
    (u f cc : Bool) (bs : Nat) (records : List (ContainerRecord α)) :
    (uploadContainers env u f cc bs records).failed
      = (records.filter
          (fun c => !(uploadProcessContainer env u f cc bs c).success)).map
          ContainerRecord.name := by
  induction records with
  | nil => rfl
  | cons c rest ih =>
    cases h : (uploadProcessContainer env u f cc bs c).success <;>
      simp [uploadContainers, ih, h, List.filter_cons]

/-- Closed form of the uploaded-item total. -/
lemma uploadContainers_total {α : Type} (env : UploadEnv α)
    (u f cc : Bool) (bs : Nat) (records : List (ContainerRecord α)) :
    (uploadContainers env u f cc bs records).total_uploaded
      = (records.map
          (fun c => (uploadProcessContainer env u f cc bs c).uploaded)).sum := by
  induction records with
  | nil => rfl
  | cons c rest ih => simp [uploadContainers, ih]

/-- C3. Failure propagation: in both dump and upload a per-container failure
is absorbed and tallied (every selected unit is processed and lands in
exactly one of the success or failed lists, failures in order in the failed
list), and the operation raises at the end iff zero containers succeeded. -/
theorem c3_failure_propagation {α : Type} (denv : DumpEnv α) (db : String)
    (names : List String) (uenv : UploadEnv α) (u f cc : Bool) (bs : Nat)
    (records : List (ContainerRecord α)) :
    ((dump_containers denv db names).1.containers.length
        + (dump_containers denv db names).2.length = names.length)
    ∧ (dump_containers denv db names).2
        = names.filter (fun n => (dumpProcessContainer denv n).isNone)
    ∧ (dumpRaises (dump_containers denv db names).1 = true
        ↔ ∀ n ∈ names, dumpProcessContainer denv n = none)
    ∧ ((uploadContainers uenv u f cc bs records).successful.length
        + (uploadContainers uenv u f cc bs records).failed.length
        = records.length)
    ∧ (uploadContainers uenv u f cc bs records).failed
        = (records.filter
            (fun c => !(uploadProcessContainer uenv u f cc bs c).success)).map
            ContainerRecord.name
    ∧ (uploadRaises (uploadContainers uenv u f cc bs records) = true
        ↔ ∀ c ∈ records,
            (uploadProcessContainer uenv u f cc bs c).success = false) := by
  refine ⟨?_, ?_, ?_, ?_, uploadContainers_failed _ _ _ _ _ _, ?_⟩
  · simp only [dump_containers, dumpProcessAll_eq]
    exact filterMap_length_add _ _
  · simp [dump_containers, dumpProcessAll_eq]
  · simp only [dumpRaises, dump_containers, dumpProcessAll_eq,
      List.isEmpty_iff, List.filterMap_eq_nil_iff]
  · rw [uploadContainers_successful, uploadContainers_failed]
    simp only [List.length_map]
    exact (List.length_eq_length_filter_add
      (fun c => (uploadProcessContainer uenv u f cc bs c).success)).symm
  · rw [uploadRaises, uploadContainers_successful]
    simp [List.filter_eq_nil_iff, List.isEmpty_iff]

/-- A dump store with containers `a` (one item) and `b` (raises on
property read), used as concrete input below. -/
def denvC : DumpEnv Nat where
  props := fun n => if n = "a" then .ok none else .error ()
  fetchItems := fun n => if n = "a" then .ok [7] else .error ()

/-- Counterexample to C9 as stated: when container `b` of the selection
`[a, b]` fails to process, the produced envelope has `total_containers = 2`
but only one record in `containers`, so `total_containers` is not
recomputable from `containers`. -/
theorem c9_counterexample :
    (dump_containers denvC "db" ["a", "b"]).2 = ["b"]
    ∧ (dump_containers denvC "db" ["a", "b"]).1.total_containers = 2
    ∧ (dump_containers denvC "db" ["a", "b"]).1.containers.length = 1
    ∧ (dump_containers denvC "db" ["a", "b"]).1.total_containers
        ≠ (dump_containers denvC "db" ["a", "b"]).1.containers.length := by
  refine ⟨?_, ?_, ?_, ?_⟩ <;> decide

/-- C9 amended: in every envelope produced by the dump, `total_containers`
equals the number of selected containers — the length of `containers` plus
the number of failed containers — while `total_items` equals the sum of the
item counts of the records in `containers` (and each record's `total_items`
equals its item-list length), including when some selected containers failed
to process. -/
theorem c9_envelope_counts {α : Type} (env : DumpEnv α) (db : String)
    (names : List String) :
    (dump_containers env db names).1.total_containers = names.length
    ∧ (dump_containers env db names).1.total_containers
        = (dump_containers env db names).1.containers.length
          + (dump_containers env db names).2.length
    ∧ (dump_containers env db names).1.total_items
        = ((dump_containers env db names).1.containers.map
            (fun r => (r.items.getD []).length)).sum
    ∧ (dump_containers env db names).1.total_items
        = ((dump_containers env db names).1.containers.map
            ContainerRecord.total_items).sum
    ∧ ∀ r ∈ (dump_containers env db names).1.containers,
        r.total_items = (r.items.getD []).length := by
  have hrec : ∀ r ∈ (dump_containers env db names).1.containers,
      r.total_items = (r.items.getD []).length := by
    intro r hr
    simp only [dump_containers, dumpProcessAll_eq, List.mem_filterMap] at hr
    obtain ⟨n, _, hn⟩ := hr
    unfold dumpProcessContainer at hn
    rcases hp : env.props n with _ | pk <;> rw [hp] at hn
    · exact absurd hn (by simp)
    · rcases hf : env.fetchItems n with _ | its <;> rw [hf] at hn
      · exact absurd hn (by simp)
      · cases hn
        rfl
  refine ⟨rfl, ?_, rfl, ?_, hrec⟩
  · simp only [dump_containers, dumpProcessAll_eq]
    exact (filterMap_length_add _ _).symm
  · simp only [dump_containers]
    congr 1
    exact List.map_congr_left fun r hr => ((hrec r (by simpa using hr))).symm

/-- The item-upload tail leaves the creation-call trace untouched. -/
lemma uploadItems_createCalls {α : Type} (env : UploadEnv α) (upsert : Bool)
    (bs : Nat) (name : String) (items : List α) (calls : List PKSpec) :
    (uploadItems env upsert bs name items calls).createCalls = calls := by
  unfold uploadItems
  split
  · rfl
  · split
    · rfl
    · rfl

/-- Reduction of the loop body to the creation ladder when the container is
missing, creation is enabled and permitted, and the record carries a schema
whose `paths` is a list. -/
lemma uploadProcessContainer_ladder_list {α : Type} (env : UploadEnv α)
    (upsert force : Bool) (bs : Nat) (c : ContainerRecord α)
    (habs : c.name ∉ env.available)
    (hperm : force = true ∨ env.confirmCreate c.name = true)
    (l : List String) (hpk : c.partition_key = some ⟨some (.list l)⟩) :
    uploadProcessContainer env upsert force true bs c =
      (if env.createOk c.name (pkSpecOfPaths l) then
        uploadItems env upsert bs c.name (c.items.getD []) [pkSpecOfPaths l]
      else if env.createOk c.name (.single "pk") then
        uploadItems env upsert bs c.name (c.items.getD [])
          [pkSpecOfPaths l, .single "pk"]
      else ⟨false, 0, [pkSpecOfPaths l, .single "pk"], []⟩) := by
  unfold uploadProcessContainer
  rcases hperm with h | h <;> simp [habs, h, hpk]

/-- Reduction of the loop body when the schema's `paths` is a single
string: it is normalized to a one-element path list. -/
lemma uploadProcessContainer_ladder_str {α : Type} (env : UploadEnv α)
    (upsert force : Bool) (bs : Nat) (c : ContainerRecord α)
    (habs : c.name ∉ env.available)
    (hperm : force = true ∨ env.confirmCreate c.name = true)
    (s : String) (hpk : c.partition_key = some ⟨some (.str s)⟩) :
    uploadProcessContainer env upsert force true bs c =
      (if env.createOk c.name (.single s) then
        uploadItems env upsert bs c.name (c.items.getD []) [.single s]
      else if env.createOk c.name (.single "pk") then
        uploadItems env upsert bs c.name (c.items.getD [])
          [.single s, .single "pk"]
      else ⟨false, 0, [.single s, .single "pk"], []⟩) := by
  unfold uploadProcessContainer
  rcases hperm with h | h <;> simp [habs, h, hpk, pkSpecOfPaths]

/-- Reduction of the loop body to the default `/id` creation when the
record carries no partition-key schema. -/
lemma uploadProcessContainer_default {α : Type} (env : UploadEnv α)
    (upsert force : Bool) (bs : Nat) (c : ContainerRecord α)
    (habs : c.name ∉ env.available)
    (hperm : force = true ∨ env.confirmCreate c.name = true)
    (hpk : c.partition_key = none) :
    uploadProcessContainer env upsert force true bs c =
      (if env.createOk c.name (.single "/id") then
        uploadItems env upsert bs c.name (c.items.getD []) [.single "/id"]
      else ⟨false, 0, [PKSpec.single "/id"], []⟩) := by
  unfold uploadProcessContainer
  rcases hperm with h | h <;> simp [habs, h, hpk]

/-- C2. Partition-key reconciliation ladder: for a replay-set container
absent from the live catalog with creation permitted, a record whose schema
has non-empty `paths` first attempts creation with exactly that schema (one
path as a simple key, several as a composite key), retries once with the
single synthetic path `pk` if the first attempt fails, and is marked failed
with no items uploaded when both fail; a record with no schema at all goes
directly to the default single path `/id` with no other attempts. -/
theorem c2_pk_ladder {α : Type} (env : UploadEnv α) (upsert force : Bool)
    (bs : Nat) (c : ContainerRecord α)
    (habs : c.name ∉ env.available)
    (hperm : force = true ∨ env.confirmCreate c.name = true) :
    (∀ l, c.partition_key = some ⟨some (.list l)⟩ → l ≠ [] →
      (uploadProcessContainer env upsert force true bs c).createCalls.head?
          = some (pkSpecOfPaths l)
      ∧ (∀ p, l = [p] → pkSpecOfPaths l = .single p)
      ∧ (2 ≤ l.length → pkSpecOfPaths l = .multi l)
      ∧ (env.createOk c.name (pkSpecOfPaths l) = true →
          (uploadProcessContainer env upsert force true bs c).createCalls
            = [pkSpecOfPaths l])
      ∧ (env.createOk c.name (pkSpecOfPaths l) = false →
          (uploadProcessContainer env upsert force true bs c).createCalls
            = [pkSpecOfPaths l, .single "pk"])
      ∧ (env.createOk c.name (pkSpecOfPaths l) = false →
          env.createOk c.name (.single "pk") = false →
          (uploadProcessContainer env upsert force true bs c).success = false
          ∧ (uploadProcessContainer env upsert force true bs c).writeCalls = []
          ∧ (uploadProcessContainer env upsert force true bs c).uploaded = 0))
    ∧ (∀ s, c.partition_key = some ⟨some (.str s)⟩ →
      (uploadProcessContainer env upsert force true bs c).createCalls.head?
          = some (.single s)
      ∧ (env.createOk c.name (.single s) = false →
          env.createOk c.name (.single "pk") = false →
          (uploadProcessContainer env upsert force true bs c).success = false
          ∧ (uploadProcessContainer env upsert force true bs c).writeCalls = []
          ∧ (uploadProcessContainer env upsert force true bs c).uploaded = 0))
    ∧ (c.partition_key = none →
      (uploadProcessContainer env upsert force true bs c).createCalls
          = [.single "/id"]
      ∧ (env.createOk c.name (.single "/id") = false →
          (uploadProcessContainer env upsert force true bs c).success = false
          ∧ (uploadProcessContainer env upsert force true bs c).writeCalls = []
          ∧ (uploadProcessContainer env upsert force true bs c).uploaded = 0)) := by
  refine ⟨?_, ?_, ?_⟩
  · intro l hpk _
    rw [uploadProcessContainer_ladder_list env upsert force bs c habs hperm l hpk]
    have hsingle : ∀ p, l = [p] → pkSpecOfPaths l = .single p := by
      intro p hp
      subst hp
      rfl
    have hmulti : 2 ≤ l.length → pkSpecOfPaths l = .multi l := by
      intro hlen
      cases l with
      | nil => simp at hlen
      | cons a t =>
        cases t with
        | nil => simp at hlen
        | cons b t2 => rfl
    rcases h1 : env.createOk c.name (pkSpecOfPaths l) with _ | _
    · rcases h2 : env.createOk c.name (PKSpec.single "pk") with _ | _
      · refine ⟨rfl, hsingle, hmulti, ?_, ?_, ?_⟩
        · intro hc
          exact absurd hc (by decide)
        · intro _
          rfl
        · intro _ _
          exact ⟨rfl, rfl, rfl⟩
      · refine ⟨?_, hsingle, hmulti, ?_, ?_, ?_⟩
        · rw [if_neg (show ¬(false = true) by decide), if_pos rfl, uploadItems_createCalls]
          rfl
        · intro hc
          exact absurd hc (by decide)
        · intro _
          rw [if_neg (show ¬(false = true) by decide), if_pos rfl, uploadItems_createCalls]
        · intro _ hc2
          exact absurd hc2 (by decide)
    · refine ⟨?_, hsingle, hmulti, ?_, ?_, ?_⟩
      · rw [if_pos rfl, uploadItems_createCalls]
        rfl
      · intro _
        rw [if_pos rfl, uploadItems_createCalls]
      · intro hc
        exact absurd hc (by decide)
      · intro hc _
        exact absurd hc (by decide)
  · intro s hpk
    rw [uploadProcessContainer_ladder_str env upsert force bs c habs hperm s hpk]
    rcases h1 : env.createOk c.name (PKSpec.single s) with _ | _
    · rcases h2 : env.createOk c.name (PKSpec.single "pk") with _ | _
      · exact ⟨rfl, fun _ _ => ⟨rfl, rfl, rfl⟩⟩
      · refine ⟨?_, ?_⟩
        · rw [if_neg (show ¬(false = true) by decide), if_pos rfl, uploadItems_createCalls]
          rfl
        · intro _ hc2
          exact absurd hc2 (by decide)
    · refine ⟨?_, ?_⟩
      · rw [if_pos rfl, uploadItems_createCalls]
        rfl
      · intro hc1 _
        exact absurd hc1 (by decide)
  · intro hpk
    rw [uploadProcessContainer_default env upsert force bs c habs hperm hpk]
    rcases h1 : env.createOk c.name (PKSpec.single "/id") with _ | _
    · exact ⟨rfl, fun _ => ⟨rfl, rfl, rfl⟩⟩
    · refine ⟨?_, ?_⟩
      · rw [if_pos rfl, uploadItems_createCalls]
      · intro hc
        exact absurd hc (by decide)
/-- A store that rejects every container creation, with one existing
container `a`; used as concrete input below. -/
def uenvC2 : UploadEnv Nat where
  available := ["a"]
  confirmCreate := fun _ => true
  confirmProceed := true
  createOk := fun _ _ => false
  write := fun _ d => some d
  batchRaises := fun _ => false

/-- A record carrying a two-path (composite) partition-key schema. -/
def recC2 : ContainerRecord Nat :=
  ⟨"c", 1, some ⟨some (.list ["/a", "/b"])⟩, some [5]⟩

/-- Witness for C2: with both the composite attempt and the `pk` fallback
rejected, the creation calls are exactly the composite schema then `pk`,
and the container fails with nothing uploaded. -/
theorem c2_pk_ladder_witness :
    (uploadProcessContainer uenvC2 true true true 1 recC2).createCalls
      = [PKSpec.multi ["/a", "/b"], PKSpec.single "pk"]
    ∧ (uploadProcessContainer uenvC2 true true true 1 recC2).success = false
    ∧ (uploadProcessContainer uenvC2 true true true 1 recC2).uploaded = 0 := by
  have h := (c2_pk_ladder uenvC2 true true 1 recC2 (by decide) (Or.inl rfl)).1
    ["/a", "/b"] rfl (by decide)
  refine ⟨?_, ?_, ?_⟩
  · have := h.2.2.2.2.1 (by decide)
    simpa [pkSpecOfPaths] using this
  · exact (h.2.2.2.2.2 (by decide) (by decide)).1
  · exact (h.2.2.2.2.2 (by decide) (by decide)).2.2

/-- An upload store with no containers and every call succeeding. -/
def uenvC10 : UploadEnv Nat where
  available := []
  confirmCreate := fun _ => true
  confirmProceed := true
  createOk := fun _ _ => true
  write := fun _ d => some d
  batchRaises := fun _ => false

/-- A record with an empty item list. -/
def recC10 : ContainerRecord Nat := ⟨"c", 0, none, some []⟩

/-- Counterexample to C10 as stated: a record with an empty item list whose
container is missing from the catalog while container creation is disabled
is recorded as failed, not successful (though no write is issued and zero
items are uploaded). -/
theorem c10_counterexample :
    recC10.items = some []
    ∧ (uploadProcessContainer uenvC10 true true false 1 recC10).success = false
    ∧ (uploadProcessContainer uenvC10 true true false 1 recC10).writeCalls = []
    ∧ (uploadProcessContainer uenvC10 true true false 1 recC10).uploaded = 0 := by
  refine ⟨rfl, ?_, ?_, ?_⟩ <;> decide

/-- C10 amended: for every container record in the replay set whose items
sequence is empty or absent and whose container is present in the live
catalog, the upload issues no write call and no creation call for that
container, counts it as successful, and contributes zero to the total
uploaded count. -/
theorem c10_empty_items {α : Type} (env : UploadEnv α) (u f cc : Bool)
    (bs : Nat) (c : ContainerRecord α)
    (hit : c.items = none ∨ c.items = some [])
    (hav : c.name ∈ env.available) :
    (uploadProcessContainer env u f cc bs c).success = true
    ∧ (uploadProcessContainer env u f cc bs c).writeCalls = []
    ∧ (uploadProcessContainer env u f cc bs c).createCalls = []
    ∧ (uploadProcessContainer env u f cc bs c).uploaded = 0 := by
  unfold uploadProcessContainer uploadItems
  rcases hit with h | h <;> simp [h, hav]

/-- An upload store holding container `c`. -/
def uenvC10b : UploadEnv Nat where
  available := ["c"]
  confirmCreate := fun _ => true
  confirmProceed := true
  createOk := fun _ _ => true
  write := fun _ d => some d
  batchRaises := fun _ => false

/-- Witness for the amended C10 at a concrete record without an items
key. -/
theorem c10_empty_items_witness :
    (uploadProcessContainer uenvC10b true false false 3
        ⟨"c", 0, none, none⟩).success = true
    ∧ (uploadProcessContainer uenvC10b true false false 3
        ⟨"c", 0, none, none⟩).writeCalls = []
    ∧ (uploadProcessContainer uenvC10b true false false 3
        ⟨"c", 0, none, none⟩).createCalls = []
    ∧ (uploadProcessContainer uenvC10b true false false 3
        ⟨"c", 0, none, none⟩).uploaded = 0 :=
  c10_empty_items uenvC10b true false false 3 ⟨"c", 0, none, none⟩
    (Or.inl rfl) (by decide)

/-- C6. Envelope-parser container filter: with a supplied comma-separated
filter, the parse fails iff some requested name is absent from the
envelope, the error names exactly the missing names, and on success the
replay set is the envelope's records whose names were requested. -/
theorem c6_container_filter {α : Type} (records : List (ContainerRecord α))
    (f : String) :
    (∀ e, selectContainers records f = .error e →
        e ≠ []
        ∧ ∀ n, n ∈ e ↔
            (n ∈ splitTargets f ∧ n ∉ records.map ContainerRecord.name))
    ∧ (∀ sel, selectContainers records f = .ok sel →
        (∀ n ∈ splitTargets f, n ∈ records.map ContainerRecord.name)
        ∧ sel = records.filter (fun c => decide (c.name ∈ splitTargets f)))
    ∧ ((∃ n, n ∈ splitTargets f ∧ n ∉ records.map ContainerRecord.name)
        → ∃ e, selectContainers records f = .error e) := by
  refine ⟨?_, ?_, ?_⟩
  · intro e he
    simp only [selectContainers] at he
    split at he
    · exact Except.noConfusion he
    · rename_i hne
      have he' : (splitTargets f).filter
          (fun c => decide (c ∉ records.map ContainerRecord.name)) = e := by
        cases he
        rfl
      constructor
      · intro h0
        rw [h0] at he'
        rw [he'] at hne
        exact hne rfl
      · intro n
        rw [← he']
        simp [List.mem_filter]
  · intro sel hs
    simp only [selectContainers] at hs
    split at hs
    · rename_i hem
      rw [List.isEmpty_iff] at hem
      cases hs
      constructor
      · intro n hn
        by_contra hna
        have hmem : n ∈ (splitTargets f).filter
            (fun c => decide (c ∉ records.map ContainerRecord.name)) := by
          rw [List.mem_filter]
          exact ⟨hn, by simpa using hna⟩
        rw [hem] at hmem
        exact absurd hmem (List.not_mem_nil n)
      · rfl
    · exact Except.noConfusion hs
  · rintro ⟨n, hn, hna⟩
    simp only [selectContainers]
    split
    · rename_i hem
      rw [List.isEmpty_iff] at hem
      exfalso
      have hmem : n ∈ (splitTargets f).filter
          (fun c => decide (c ∉ records.map ContainerRecord.name)) := by
        rw [List.mem_filter]
        exact ⟨hn, by simpa using hna⟩
      rw [hem] at hmem
      exact absurd hmem (List.not_mem_nil n)
    · exact ⟨_, rfl⟩

/-- A one-record envelope content used as concrete input below. -/
def recC6 : ContainerRecord Nat := ⟨"a", 0, none, none⟩

/-- Witness for C6: requesting `a,b` against an envelope holding only `a`
is an error naming exactly `b`. -/
theorem c6_container_filter_witness :
    selectContainers [recC6] "a,b" = .error ["b"]
    ∧ ("b" ∈ ["b"] ↔
        ("b" ∈ splitTargets "a,b"
          ∧ "b" ∉ [recC6].map ContainerRecord.name)) := by
  have hsel : selectContainers [recC6] "a,b" = .error ["b"] := by rfl
  exact ⟨hsel, ((c6_container_filter [recC6] "a,b").1 ["b"] hsel).2 "b"⟩

/-- C7. Legacy-shape conversion: an input with a `container` field and an
`items` field and no `containers` sequence parses to a one-element record
list whose single record has the legacy name, the legacy items, the legacy
partition key, and `total_items` equal to the length of `items`. -/
theorem c7_legacy_conversion {α : Type} (d : RawData α) (nm : String)
    (its : List α) (hc : d.containers = none) (hn : d.container = some nm)
    (hi : d.items = some its) :
    parseShape d
      = .ok [{ name := nm, total_items := its.length,
               partition_key := d.partition_key, items := some its }] := by
  unfold parseShape
  rw [hc, hn, hi]

/-- A legacy-shape input used as concrete input below. -/
def rawC7 : RawData Nat := ⟨none, some "c", some [1, 2], none⟩

/-- Witness for C7 at a concrete legacy input with two items. -/
theorem c7_legacy_conversion_witness :
    parseShape rawC7 = .ok [⟨"c", 2, none, some [1, 2]⟩] :=
  c7_legacy_conversion rawC7 "c" [1, 2] rfl rfl rfl

/-- Under an ideal store (container present, batch call not raising, every
write succeeding), a container's loop body succeeds, uploads every item,
and performs no creation call. -/
lemma uploadProcessContainer_ideal {α : Type} (env : UploadEnv α)
    (u f cc : Bool) (bs : Nat) (hbs : 0 < bs) (c : ContainerRecord α)
    (hav : c.name ∈ env.available) (hbr : env.batchRaises c.name = false)
    (hw : ∀ d ∈ c.items.getD [], (env.write c.name d).isSome = true) :
    (uploadProcessContainer env u f cc bs c).success = true
    ∧ (uploadProcessContainer env u f cc bs c).uploaded
        = (c.items.getD []).length
    ∧ (uploadProcessContainer env u f cc bs c).createCalls = []
    ∧ (uploadProcessContainer env u f cc bs c).writeCalls
        = c.items.getD [] := by
  unfold uploadProcessContainer
  rw [if_pos hav]
  unfold uploadItems
  by_cases hempty : (c.items.getD []).isEmpty
  · rw [if_pos hempty]
    rw [List.isEmpty_iff] at hempty
    exact ⟨rfl, by simp [hempty], rfl, by simp [hempty]⟩
  · rw [if_neg hempty, if_neg (by simp [hbr])]
    cases u <;>
      simp [create_items_batch_eq _ _ _ hbs, upsert_items_batch_eq _ _ _ hbs,
        filterMap_length_all_some _ _ hw]

/-- Under an ideal store with accurate record counts, the upload loop
uploads the sum of the recorded totals, succeeds on every container and
fails none. -/
lemma uploadContainers_ideal {α : Type} (env : UploadEnv α) (u f cc : Bool)
    (bs : Nat) (hbs : 0 < bs) :
    ∀ records : List (ContainerRecord α),
      (∀ c ∈ records, c.name ∈ env.available
        ∧ env.batchRaises c.name = false
        ∧ c.total_items = (c.items.getD []).length
        ∧ ∀ d ∈ c.items.getD [], (env.write c.name d).isSome = true) →
      (uploadContainers env u f cc bs records).total_uploaded
          = (records.map ContainerRecord.total_items).sum
      ∧ (uploadContainers env u f cc bs records).successful.length
          = records.length
      ∧ (uploadContainers env u f cc bs records).failed = [] := by
  intro records
  induction records with
  | nil => exact fun _ => ⟨rfl, rfl, rfl⟩
  | cons c rest ih =>
    intro h
    obtain ⟨hav, hbr, hti, hw⟩ := h c (by simp)
    have hrest := ih (fun c' hc' => h c' (by simp [hc']))
    have hp := uploadProcessContainer_ideal env u f cc bs hbs c hav hbr hw
    refine ⟨?_, ?_, ?_⟩
    · simp [uploadContainers, hp.2.1, hrest.1, hti]
    · simp [uploadContainers, hp.1, hrest.2.1]
    · simp [uploadContainers, hp.1, hrest.2.2]

/-- C8 amended. Dry-run: with dry-run enabled the upload performs no
container-creation call and no item-write call and reports
`sum(total_items)` items over `len(records)` containers; a real run over
the same input under an ideal store reports exactly those totals, with
every container successful, provided each record's recorded `total_items`
equals its actual item count (the invariant the dump writes). -/
theorem c8_dry_run {α : Type} (env : UploadEnv α) (upsert force cc : Bool)
    (bs : Nat) (records : List (ContainerRecord α)) (hbs : 0 < bs)
    (hideal : ∀ c ∈ records, c.name ∈ env.available
      ∧ env.batchRaises c.name = false
      ∧ c.total_items = (c.items.getD []).length
      ∧ ∀ d ∈ c.items.getD [], (env.write c.name d).isSome = true) :
    upload_entries_run env upsert true force cc bs records
      = .dryRun ((records.map ContainerRecord.total_items).sum) records.length
    ∧ outcomeCreateCalls
        (upload_entries_run env upsert true force cc bs records) = []
    ∧ outcomeWriteCalls
        (upload_entries_run env upsert true force cc bs records) = []
    ∧ (uploadContainers env upsert force cc bs records).total_uploaded
        = (records.map ContainerRecord.total_items).sum
    ∧ (uploadContainers env upsert force cc bs records).successful.length
        = records.length
    ∧ (uploadContainers env upsert force cc bs records).failed = [] := by
  have hrun : upload_entries_run env upsert true force cc bs records
      = .dryRun ((records.map ContainerRecord.total_items).sum)
          records.length := by
    simp [upload_entries_run]
  have hideal' := uploadContainers_ideal env upsert force cc bs hbs records hideal
  exact ⟨hrun, by rw [hrun]; rfl, by rw [hrun]; rfl,
    hideal'.1, hideal'.2.1, hideal'.2.2⟩

/-- An ideal upload store holding containers `a` and `b`. -/
def uenvC8 : UploadEnv Nat where
  available := ["a", "b"]
  confirmCreate := fun _ => true
  confirmProceed := true
  createOk := fun _ _ => true
  write := fun _ d => some d
  batchRaises := fun _ => false

/-- A two-record replay set totalling two items. -/
def recsC8 : List (ContainerRecord Nat) :=
  [⟨"a", 2, none, some [1, 2]⟩, ⟨"b", 0, none, some []⟩]

/-- Witness for C8 at a concrete replay set. -/
theorem c8_dry_run_witness :
    upload_entries_run uenvC8 true true false false 2 recsC8 = .dryRun 2 2
    ∧ outcomeWriteCalls
        (upload_entries_run uenvC8 true true false false 2 recsC8) = []
    ∧ (uploadContainers uenvC8 true false false 2 recsC8).total_uploaded = 2
    ∧ (uploadContainers uenvC8 true false false 2 recsC8).failed = [] := by
  have h := c8_dry_run uenvC8 true false false 2 recsC8 (by decide) (by decide)
  exact ⟨h.1, h.2.2.1, h.2.2.2.1, h.2.2.2.2.2⟩

/-- An ideal upload store holding container `a`, accepting every creation
and every write. -/
def uenvC8x : UploadEnv Nat where
  available := ["a"]
  confirmCreate := fun _ => true
  confirmProceed := true
  createOk := fun _ _ => true
  write := fun _ d => some d
  batchRaises := fun _ => false

/-- A replay set whose single record carries a stale recorded count:
`total_items = 5` but only three items — a shape the format tolerates on
read and the upload never validates. -/
def recsC8x : List (ContainerRecord Nat) :=
  [⟨"a", 5, none, some [1, 2, 3]⟩]

/-- Counterexample to C8 as stated: over a record whose recorded
`total_items` (5) disagrees with its actual item count (3), the dry run
reports 5 items to upload while a real run over the same input under a
fully ideal store uploads and reports 3, with zero failed containers —
so the dry-run totals differ from what the real run reports. -/
theorem c8_counterexample :
    upload_entries_run uenvC8x true true false false 2 recsC8x
      = .dryRun 5 1
    ∧ (uploadContainers uenvC8x true false false 2 recsC8x).total_uploaded
      = 3
    ∧ (uploadContainers uenvC8x true false false 2 recsC8x).failed = []
    ∧ (5 : Nat) ≠ 3 := by
  have hp := uploadProcessContainer_ideal uenvC8x true false false 2
    (by decide) ⟨"a", 5, none, some [1, 2, 3]⟩ (by decide) rfl (by decide)
  refine ⟨rfl, ?_, ?_, by decide⟩
  · rw [uploadContainers_total]
    simp [recsC8x, hp.2.1]
  · rw [uploadContainers_failed]
    simp [recsC8x, hp.1]

/-- C1. Round-trip: dumping a container holding `docs` yields an envelope
whose single record carries those documents; uploading that envelope in
upsert mode into a store where the (empty) target container exists and
every upsert succeeds uploads exactly `docs.length` items with no failed
container. -/
theorem c1_round_trip {α : Type} (denv : DumpEnv α) (uenv : UploadEnv α)
    (db name : String) (docs : List α) (pk : Option PKSchema)
    (force cc : Bool) (bs : Nat) (hbs : 0 < bs)
    (hp : denv.props name = .ok pk) (hf : denv.fetchItems name = .ok docs)
    (hav : name ∈ uenv.available) (hbr : uenv.batchRaises name = false)
    (hw : ∀ d ∈ docs, (uenv.write name d).isSome = true) :
    (dump_containers denv db [name]).1.containers
      = [⟨name, docs.length, pk, some docs⟩]
    ∧ (uploadContainers uenv true force cc bs
        (dump_containers denv db [name]).1.containers).total_uploaded
      = docs.length
    ∧ (uploadContainers uenv true force cc bs
        (dump_containers denv db [name]).1.containers).failed = [] := by
  have hcont : (dump_containers denv db [name]).1.containers
      = [⟨name, docs.length, pk, some docs⟩] := by
    simp [dump_containers, dumpProcessAll, dumpProcessContainer, hp, hf]
  have hideal := uploadContainers_ideal uenv true force cc bs hbs
    [⟨name, docs.length, pk, some docs⟩]
    (by
      intro c hc
      simp only [List.mem_singleton] at hc
      subst hc
      exact ⟨hav, hbr, by simp, by simpa using hw⟩)
  rw [hcont]
  exact ⟨rfl, by simpa using hideal.1, hideal.2.2⟩

/-- A dump store with one container `c` holding three items. -/
def denvC1 : DumpEnv Nat where
  props := fun _ => .ok none
  fetchItems := fun _ => .ok [1, 2, 3]

/-- An ideal upload store holding an (empty) container `c`. -/
def uenvC1 : UploadEnv Nat where
  available := ["c"]
  confirmCreate := fun _ => true
  confirmProceed := true
  createOk := fun _ _ => true
  write := fun _ d => some d
  batchRaises := fun _ => false

/-- Witness for C1: a three-document container round-trips with
`total_uploaded = 3` and no failed containers. -/
theorem c1_round_trip_witness :
    (uploadContainers uenvC1 true false false 2
        (dump_containers denvC1 "db" ["c"]).1.containers).total_uploaded = 3
    ∧ (uploadContainers uenvC1 true false false 2
        (dump_containers denvC1 "db" ["c"]).1.containers).failed = [] := by
  have h := c1_round_trip denvC1 uenvC1 "db" "c" [1, 2, 3] none false false 2
    (by decide) rfl rfl (by decide) rfl (by decide)
  exact ⟨h.2.1, h.2.2⟩

end CosmosIsolationUtils
